import Mathlib

/-!
Shallow embedding of the Classic ACL manager
(`src/gd/rust/acl/src/classic/mod.rs`) and proofs about its
connection-establishment state machine.

The coordinator task spawned by `provide_acl_manager` owns three pieces of
state: the handle-keyed connection registry (a `HashMap<u16,
ConnectionInternal>`), the `connect_queue : Vec<Address>`, and the
`pending : PendingConnect` slot.  Each iteration of its `select!` loop
consumes one caller request or one controller event and reacts by mutating
that state and emitting HCI commands and caller-visible events.  We model
one loop iteration as a pure step function `coordStep` from state and input
to a `StepResult`: normal continuation (`ok`), the task returning and the
loop ending (`returned`, the `return` in the already-connected branch of
`Request::Connect`), or a process abort (`fatal`, the panic in the
`ConnectionComplete` role match and the `assert!` guarding registry
insertion).  `coordRun` folds `coordStep` over an input trace, stopping at
`returned` or `fatal`.  The per-connection actor `run_connection` is
modelled the same way by `run_connection_step`.
-/

namespace AclClassic

/-- Bluetooth device address: an opaque, equality-comparable identifier
(`bt_hci::Address`). -/
abbrev Address := Nat

/-- HCI error codes (`bt_packets::hci::ErrorCode`).  The module only
distinguishes `Success` from everything else; the remaining codes are
carried opaquely as a reason. -/
inductive ErrorCode
  | success
  | pageTimeout
  | connectionTimeout
  | other (code : Nat)
deriving DecidableEq, Repr

/-- Link role (`bt_packets::hci::Role`). -/
inductive Role
  | central
  | peripheral
deriving DecidableEq, Repr

/-- Reasons for rejecting an incoming connection request
(`bt_packets::hci::RejectConnectionReason`). -/
inductive RejectConnectionReason
  | limitedResources
  | securityReasons
  | unacceptableBdAddr
deriving DecidableEq, Repr

/-- Reason passed through `Disconnect` requests
(`bt_packets::hci::DisconnectReason`), carried opaquely. -/
abbrev DisconnectReason := Nat

/-- The `PendingConnect` sum type of `mod.rs`: the single outstanding
connection attempt, if any. -/
inductive PendingConnect
  | outgoing (addr : Address)
  | incoming (addr : Address)
  | none
deriving DecidableEq, Repr

/-- `PendingConnect::take`: `mem::replace(self, PendingConnect::None)` —
returns the previous value and leaves `None` behind. -/
def PendingConnect.take (p : PendingConnect) : PendingConnect × PendingConnect :=
  (p, PendingConnect.none)

/-- Registry bookkeeping per live handle (`ConnectionInternal`): the peer
address and the role stored in the shared `ConnectionShared`.  The event
channel to the owning actor is represented by the entry's mere presence —
`dispatch_to` only checks presence before forwarding. -/
structure ConnectionInternal where
  addr : Address
  role : Role
deriving DecidableEq, Repr

/-- The connection registry: the coordinator's `HashMap<u16,
ConnectionInternal>` as an association list keyed by handle; `HashMap`
lookup and insert are mirrored by first-match lookup and cons. -/
abbrev Registry := List (Nat × ConnectionInternal)

/-- First-match lookup by handle, the model of `HashMap::get`. -/
def lookupHandle (handle : Nat) : Registry → Option ConnectionInternal
  | [] => Option.none
  | (h, c) :: rest => if h = handle then Option.some c else lookupHandle handle rest

/-- `connections.remove(&handle)`: drop the entry for `handle`. -/
def removeHandle (handle : Nat) (l : Registry) : Registry :=
  l.filter (fun p => p.1 != handle)

/-- `connections.lock().await.values().any(|c| c.addr == addr)`: is some
registry entry already bound to this address? -/
def alreadyConnected (conns : Registry) (addr : Address) : Bool :=
  conns.any (fun c => c.2.addr == addr)

/-- `dispatch_to(handle, connections, event)`: the event is forwarded to
the owning actor's channel iff the handle is registered; otherwise it is
silently dropped.  Returns whether the event was delivered. -/
def dispatch_to (handle : Nat) (connections : Registry) : Bool :=
  (lookupHandle handle connections).isSome

/-- Caller requests travelling on `req_tx` (`enum Request`).  The oneshot
acknowledgment slot of `CancelConnect` is modelled by the
`cancelConnectAck` output. -/
inductive Request
  | connect (addr : Address)
  | cancelConnect (addr : Address)
deriving DecidableEq, Repr

/-- Controller events the coordinator registered for, with the fields the
code reads from each packet. -/
inductive HciEvent
  | connectionComplete (addr : Address) (status : ErrorCode) (handle : Nat)
  | connectionRequest (addr : Address)
  | authenticationComplete (handle : Nat)
deriving DecidableEq, Repr

/-- One message consumed by an iteration of the coordinator's `select!`
loop: a caller request or a controller event. -/
inductive Input
  | req (r : Request)
  | evt (e : HciEvent)
deriving DecidableEq, Repr

/-- Observable effects of one coordinator iteration: HCI commands sent via
`hci.send`, caller events sent on `conn_evt_tx`, the cancel oneshot
acknowledgment, actor spawning, the warn log, and handle-scoped event
forwarding. -/
inductive Output
  | createConnection (addr : Address)
  | createConnectionCancel (addr : Address)
  | acceptConnectionRequest (addr : Address)
  | rejectConnectionRequest (addr : Address) (reason : RejectConnectionReason)
  | cancelConnectAck
  | spawnActor (handle : Nat)
  | connectSuccess (addr : Address) (handle : Nat) (role : Role)
  | connectFail (addr : Address) (reason : ErrorCode)
  | warnAlreadyConnected (addr : Address)
  | forwardToActor (handle : Nat)
deriving DecidableEq, Repr

/-- The coordinator's mutable state: registry, connect queue and pending
slot. -/
structure CoordState where
  connections : Registry
  connect_queue : List Address
  pending : PendingConnect
deriving DecidableEq, Repr

/-- The coordinator's initial state: empty registry, empty queue, no
pending attempt. -/
def initState : CoordState :=
  { connections := [], connect_queue := [], pending := PendingConnect.none }

/-- Which unrecoverable abort fired: the `panic!("No prior connection
request for ...")` in the role match, or the failed
`assert!(connections.insert(handle, ..).is_none())`. -/
inductive FatalKind
  | noPriorConnectionRequest (addr : Address)
  | handleAlreadyRegistered (handle : Nat)
deriving DecidableEq, Repr

/-- Result of one coordinator iteration.  `ok`: the loop continues with the
new state.  `returned`: the task executed `return`, ending the loop (the
already-connected branch of `Request::Connect`).  `fatal`: a panic or
failed assertion aborted the task; the carried state is the task's local
state at the abort point and has no successor. -/
inductive StepResult
  | ok (s : CoordState) (out : List Output)
  | returned (s : CoordState) (out : List Output)
  | fatal (k : FatalKind) (s : CoordState) (out : List Output)
deriving DecidableEq, Repr

/-- The state carried by a step result. -/
def StepResult.state : StepResult → CoordState
  | .ok s _ => s
  | .returned s _ => s
  | .fatal _ s _ => s

/-- The outputs emitted by a step result. -/
def StepResult.out : StepResult → List Output
  | .ok _ o => o
  | .returned _ o => o
  | .fatal _ _ o => o

/-- The `ConnectionComplete` continuation after the role match succeeded:
on `Success`, insert the registry entry (the `assert!` aborts if the handle
was already present — note `HashMap::insert` has already stored the new
entry when the assert fires), spawn the actor and emit `ConnectSuccess`;
on any other status emit `ConnectFail` with the controller's code. -/
def completeWithRole (s : CoordState) (addr : Address) (status : ErrorCode)
    (handle : Nat) (role : Role) : StepResult :=
  match status with
  | .success =>
      let entry : ConnectionInternal := { addr := addr, role := role }
      let prev := lookupHandle handle s.connections
      let s' := { s with connections := (handle, entry) :: s.connections }
      if prev.isSome then
        .fatal (.handleAlreadyRegistered handle) s' []
      else
        .ok s' [.spawnActor handle, .connectSuccess addr handle role]
  | _ => .ok s [.connectFail addr status]

/-- One iteration of the coordinator loop of `provide_acl_manager`,
translated arm by arm from the `select!` body. -/
def coordStep (s : CoordState) (i : Input) : StepResult :=
  match i with
  | .req (.connect addr) =>
      if alreadyConnected s.connections addr then
        -- `warn!("already connected"); return;` — the `return` leaves the
        -- whole spawned task, not just this match arm.
        .returned s [.warnAlreadyConnected addr]
      else
        match s.pending with
        | .none =>
            .ok { s with pending := .outgoing addr } [.createConnection addr]
        | _ =>
            -- `connect_queue.insert(0, addr)`: insertion at the FRONT.
            .ok { s with connect_queue := addr :: s.connect_queue } []
  | .req (.cancelConnect addr) =>
      -- `connect_queue.retain(|p| *p != addr)`, the conditional
      -- CreateConnectionCancel, then `fut.send(())`.
      let queue' := s.connect_queue.filter (fun p => p != addr)
      let out :=
        if s.pending = PendingConnect.outgoing addr then
          [Output.createConnectionCancel addr, Output.cancelConnectAck]
        else
          [Output.cancelConnectAck]
      .ok { s with connect_queue := queue' } out
  | .evt (.connectionComplete addr status handle) =>
      -- `pending.take()` resets the slot to None before the role match.
      let taken := s.pending.take
      let s1 := { s with pending := taken.2 }
      match taken.1 with
      | .outgoing a =>
          if a = addr then completeWithRole s1 addr status handle Role.central
          else .fatal (.noPriorConnectionRequest addr) s1 []
      | .incoming a =>
          if a = addr then completeWithRole s1 addr status handle Role.peripheral
          else .fatal (.noPriorConnectionRequest addr) s1 []
      | .none => .fatal (.noPriorConnectionRequest addr) s1 []
  | .evt (.connectionRequest addr) =>
      -- `pending = PendingConnect::Incoming(addr)` unconditionally, then
      -- accept or reject by registry membership of the address.
      let s1 := { s with pending := PendingConnect.incoming addr }
      if alreadyConnected s1.connections addr then
        .ok s1 [.rejectConnectionRequest addr RejectConnectionReason.unacceptableBdAddr]
      else
        .ok s1 [.acceptConnectionRequest addr]
  | .evt (.authenticationComplete handle) =>
      if dispatch_to handle s.connections then
        .ok s [.forwardToActor handle]
      else
        .ok s []

/-- How a run of the coordinator over a finite input trace ended:
still looping, task returned, or task aborted. -/
inductive RunOutcome
  | running
  | returned
  | fatal (k : FatalKind)
deriving DecidableEq, Repr

/-- Result of folding the coordinator over an input trace. -/
structure RunResult where
  outcome : RunOutcome
  state : CoordState
  out : List Output
deriving DecidableEq, Repr

/-- Fold `coordStep` over a trace of inputs, concatenating outputs.  After
`returned` or `fatal` the loop is gone: remaining inputs are never
processed and contribute nothing. -/
def coordRun (s : CoordState) : List Input → RunResult
  | [] => { outcome := RunOutcome.running, state := s, out := [] }
  | i :: rest =>
      match coordStep s i with
      | .ok s' o =>
          let r := coordRun s' rest
          { outcome := r.outcome, state := r.state, out := o ++ r.out }
      | .returned s' o => { outcome := RunOutcome.returned, state := s', out := o }
      | .fatal k s' o => { outcome := RunOutcome.fatal k, state := s', out := o }

/-- Events a `Connection` surfaces to its holder (`enum ConnectionEvent`). -/
inductive ConnectionEvent
  | disconnected (reason : ErrorCode)
  | authenticationComplete
deriving DecidableEq, Repr

/-- Requests from the `Connection` handle to its actor
(`enum ConnectionRequest`); the oneshot is modelled by `disconnectAck`. -/
inductive ConnectionRequest
  | disconnect (reason : DisconnectReason)
deriving DecidableEq, Repr

/-- Handle-scoped controller events the actor receives on `core.evt_rx`. -/
inductive ActorHciEvent
  | disconnectionComplete (reason : ErrorCode)
  | authenticationComplete
deriving DecidableEq, Repr

/-- One message consumed by an iteration of the actor's `select!` loop. -/
inductive ActorInput
  | hciEvt (e : ActorHciEvent)
  | req (r : ConnectionRequest)
deriving DecidableEq, Repr

/-- Observable effects of one actor iteration: events emitted on the
connection's `evt_tx`, the Disconnect HCI command, and the disconnect
oneshot acknowledgment. -/
inductive ActorOutput
  | emit (e : ConnectionEvent)
  | sendDisconnect (handle : Nat) (reason : DisconnectReason)
  | disconnectAck
deriving DecidableEq, Repr

/-- Result of one actor iteration: keep looping with the (shared) registry
as updated, or terminate (the `return` after `DisconnectionComplete`). -/
inductive ActorResult
  | running (connections : Registry) (out : List ActorOutput)
  | terminated (connections : Registry) (out : List ActorOutput)
deriving DecidableEq, Repr

/-- The registry after an actor step. -/
def ActorResult.connections : ActorResult → Registry
  | .running c _ => c
  | .terminated c _ => c

/-- The outputs of an actor step. -/
def ActorResult.out : ActorResult → List ActorOutput
  | .running _ o => o
  | .terminated _ o => o

/-- One iteration of `run_connection` for the actor owning `handle`,
translated arm by arm: `DisconnectionComplete` removes the actor's own
registry entry, emits `Disconnected(reason)` and returns;
`AuthenticationComplete` is forwarded; a `Disconnect` request sends the
HCI Disconnect command and then acknowledges the oneshot. -/
def run_connection_step (handle : Nat) (connections : Registry)
    (i : ActorInput) : ActorResult :=
  match i with
  | .hciEvt (.disconnectionComplete reason) =>
      .terminated (removeHandle handle connections)
        [.emit (.disconnected reason)]
  | .hciEvt .authenticationComplete =>
      .running connections [.emit .authenticationComplete]
  | .req (.disconnect reason) =>
      .running connections [.sendDisconnect handle reason, .disconnectAck]

/-- Did the step abort through the `panic!("No prior connection request
for ...")` branch for this address? -/
def isNoPriorFatal (r : StepResult) (addr : Address) : Bool :=
  match r with
  | .fatal (.noPriorConnectionRequest a) _ _ => a == addr
  | _ => false

/-- Did the step abort through the failed registry-insertion `assert!` for
this handle? -/
def isHandleReuseFatal (r : StepResult) (handle : Nat) : Bool :=
  match r with
  | .fatal (.handleAlreadyRegistered h) _ _ => h == handle
  | _ => false

/-! ## Helper lemmas about the registry model -/

theorem lookupHandle_isSome_iff (h : Nat) (l : Registry) :
    (lookupHandle h l).isSome = true ↔ h ∈ l.map Prod.fst := by
  induction l with
  | nil => simp [lookupHandle]
  | cons p rest ih =>
      rcases p with ⟨k, c⟩
      by_cases hk : k = h
      · subst hk
        simp [lookupHandle]
      · have hk' : ¬ h = k := fun e => hk e.symm
        simp [lookupHandle, hk, hk', ih]

theorem lookupHandle_removeHandle (h : Nat) (l : Registry) :
    lookupHandle h (removeHandle h l) = Option.none := by
  induction l with
  | nil => rfl
  | cons p rest ih =>
      rcases p with ⟨k, c⟩
      by_cases hk : k = h
      · subst hk
        simpa [removeHandle, List.filter_cons] using ih
      · simpa [removeHandle, List.filter_cons, lookupHandle, hk] using ih

theorem removeHandle_of_not_mem (h : Nat) (l : Registry)
    (hmem : h ∉ l.map Prod.fst) : removeHandle h l = l := by
  induction l with
  | nil => rfl
  | cons p rest ih =>
      rcases p with ⟨k, c⟩
      simp only [List.map_cons, List.mem_cons, not_or] at hmem
      have hk : ((k, c).1 != h) = true := by
        simp only [bne_iff_ne, ne_eq]
        exact fun e => hmem.1 e.symm
      have htail : List.filter (fun p => p.1 != h) rest = rest := ih hmem.2
      show List.filter (fun p => p.1 != h) ((k, c) :: rest) = (k, c) :: rest
      rw [List.filter_cons, if_pos hk, htail]

theorem removeHandle_length_succ (h : Nat) (l : Registry)
    (hnd : (l.map Prod.fst).Nodup) (hlive : (lookupHandle h l).isSome = true) :
    (removeHandle h l).length + 1 = l.length := by
  induction l with
  | nil => simp [lookupHandle] at hlive
  | cons p rest ih =>
      rcases p with ⟨k, c⟩
      simp only [List.map_cons, List.nodup_cons] at hnd
      by_cases hk : k = h
      · subst hk
        have hrm : List.filter (fun p => p.1 != k) rest = rest :=
          removeHandle_of_not_mem k rest hnd.1
        show (List.filter (fun p => p.1 != k) ((k, c) :: rest)).length + 1
            = ((k, c) :: rest).length
        rw [List.filter_cons]
        simp [hrm]
      · have hlive' : (lookupHandle h rest).isSome = true := by
          simpa [lookupHandle, hk] using hlive
        have hk' : ((k, c).1 != h) = true := by simpa [bne_iff_ne] using hk
        have ihl : (List.filter (fun p => p.1 != h) rest).length + 1 = rest.length :=
          ih hnd.2 hlive'
        show (List.filter (fun p => p.1 != h) ((k, c) :: rest)).length + 1
            = ((k, c) :: rest).length
        rw [List.filter_cons, if_pos hk']
        simp only [List.length_cons]
        omega

/-! ## Helper lemmas about the coordinator step -/

theorem isNoPriorFatal_completeWithRole (s : CoordState) (addr : Address)
    (status : ErrorCode) (handle : Nat) (role : Role) (a : Address) :
    isNoPriorFatal (completeWithRole s addr status handle role) a = false := by
  cases status with
  | success =>
      by_cases hl : (lookupHandle handle s.connections).isSome <;>
        simp [completeWithRole, hl, isNoPriorFatal]
  | pageTimeout => simp [completeWithRole, isNoPriorFatal]
  | connectionTimeout => simp [completeWithRole, isNoPriorFatal]
  | other code => simp [completeWithRole, isNoPriorFatal]

/-- A `CreateConnection` command is emitted only by the step that consumes
the very `connect` request for that address: the connect queue is never
promoted into a command by any other transition. -/
theorem createConnection_only_from_connect
    (s : CoordState) (i : Input) (x : Address)
    (hmem : Output.createConnection x ∈ (coordStep s i).out) :
    i = Input.req (Request.connect x) := by
  rcases i with r | e
  · rcases r with addr | addr
    · by_cases hc : alreadyConnected s.connections addr
      · simp [coordStep, hc, StepResult.out] at hmem
      · rcases hp : s.pending with a | a | _
        · simp [coordStep, hc, hp, StepResult.out] at hmem
        · simp [coordStep, hc, hp, StepResult.out] at hmem
        · simp [coordStep, hc, hp, StepResult.out] at hmem
          subst hmem
          rfl
    · by_cases ho : s.pending = PendingConnect.outgoing addr <;>
        simp [coordStep, ho, StepResult.out] at hmem
  · rcases e with ⟨addr, status, handle⟩ | ⟨addr⟩ | ⟨handle⟩
    · rcases hp : s.pending with a | a | _
      · by_cases ha : a = addr
        · subst ha
          cases status with
          | success =>
              by_cases hl : (lookupHandle handle s.connections).isSome <;>
                simp [coordStep, hp, PendingConnect.take, completeWithRole, hl,
                  StepResult.out] at hmem
          | pageTimeout =>
              simp [coordStep, hp, PendingConnect.take, completeWithRole,
                StepResult.out] at hmem
          | connectionTimeout =>
              simp [coordStep, hp, PendingConnect.take, completeWithRole,
                StepResult.out] at hmem
          | other code =>
              simp [coordStep, hp, PendingConnect.take, completeWithRole,
                StepResult.out] at hmem
        · simp [coordStep, hp, PendingConnect.take, ha, StepResult.out] at hmem
      · by_cases ha : a = addr
        · subst ha
          cases status with
          | success =>
              by_cases hl : (lookupHandle handle s.connections).isSome <;>
                simp [coordStep, hp, PendingConnect.take, completeWithRole, hl,
                  StepResult.out] at hmem
          | pageTimeout =>
              simp [coordStep, hp, PendingConnect.take, completeWithRole,
                StepResult.out] at hmem
          | connectionTimeout =>
              simp [coordStep, hp, PendingConnect.take, completeWithRole,
                StepResult.out] at hmem
          | other code =>
              simp [coordStep, hp, PendingConnect.take, completeWithRole,
                StepResult.out] at hmem
        · simp [coordStep, hp, PendingConnect.take, ha, StepResult.out] at hmem
      · simp [coordStep, hp, PendingConnect.take, StepResult.out] at hmem
    · by_cases hc : alreadyConnected s.connections addr <;>
        simp [coordStep, hc, StepResult.out] at hmem
    · by_cases hd : dispatch_to handle s.connections <;>
        simp [coordStep, hd, StepResult.out] at hmem

/-- Trace version: any `CreateConnection` command observed across a run was
requested by a `connect` input of that run. -/
theorem createConnection_run_mem (s : CoordState) (inputs : List Input) (x : Address)
    (hmem : Output.createConnection x ∈ (coordRun s inputs).out) :
    Input.req (Request.connect x) ∈ inputs := by
  induction inputs generalizing s with
  | nil => simp [coordRun] at hmem
  | cons i rest ih =>
      cases hstep : coordStep s i with
      | ok s' o =>
          simp only [coordRun, hstep] at hmem
          rcases List.mem_append.mp hmem with hin | hin
          · have hi := createConnection_only_from_connect s i x (by rw [hstep]; exact hin)
            subst hi
            exact List.mem_cons_self _ _
          · exact List.mem_cons_of_mem _ (ih s' hin)
      | returned s' o =>
          simp only [coordRun, hstep] at hmem
          have hi := createConnection_only_from_connect s i x (by rw [hstep]; exact hmem)
          subst hi
          exact List.mem_cons_self _ _
      | fatal k s' o =>
          simp only [coordRun, hstep] at hmem
          have hi := createConnection_only_from_connect s i x (by rw [hstep]; exact hmem)
          subst hi
          exact List.mem_cons_self _ _

/-- Every normally continuing coordinator step preserves distinctness of
the registry's handles. -/
theorem coordStep_ok_nodup (t : CoordState) (i : Input) (t' : CoordState)
    (o : List Output) (hstep : coordStep t i = StepResult.ok t' o)
    (hnd : (t.connections.map Prod.fst).Nodup) :
    (t'.connections.map Prod.fst).Nodup := by
  rcases i with r | e
  · rcases r with addr | addr
    · by_cases hc : alreadyConnected t.connections addr
      · simp [coordStep, hc] at hstep
      · rcases hp : t.pending with a | a | _ <;>
          simp only [coordStep, hc, hp, Bool.false_eq_true, if_false,
            StepResult.ok.injEq] at hstep <;>
          rcases hstep with ⟨ht, _⟩ <;> rw [← ht] <;> exact hnd
    · simp only [coordStep, StepResult.ok.injEq] at hstep
      rcases hstep with ⟨ht, _⟩
      rw [← ht]
      exact hnd
  · rcases e with ⟨addr, status, handle⟩ | ⟨addr⟩ | ⟨handle⟩
    · rcases hp : t.pending with a | a | _
      · by_cases ha : a = addr
        · subst ha
          cases status with
          | success =>
              by_cases hl : (lookupHandle handle t.connections).isSome
              · simp [coordStep, hp, PendingConnect.take, completeWithRole, hl] at hstep
              · simp only [coordStep, hp, PendingConnect.take, completeWithRole, hl,
                  Bool.false_eq_true, if_false, if_true, eq_self_iff_true,
                  StepResult.ok.injEq] at hstep
                rw [← hstep.1]
                show (handle :: t.connections.map Prod.fst).Nodup
                refine List.nodup_cons.mpr ⟨?_, hnd⟩
                intro hmemk
                exact hl ((lookupHandle_isSome_iff handle t.connections).mpr hmemk)
          | pageTimeout =>
              simp only [coordStep, hp, PendingConnect.take, completeWithRole,
                eq_self_iff_true, if_true, StepResult.ok.injEq] at hstep
              rw [← hstep.1]
              exact hnd
          | connectionTimeout =>
              simp only [coordStep, hp, PendingConnect.take, completeWithRole,
                eq_self_iff_true, if_true, StepResult.ok.injEq] at hstep
              rw [← hstep.1]
              exact hnd
          | other code =>
              simp only [coordStep, hp, PendingConnect.take, completeWithRole,
                eq_self_iff_true, if_true, StepResult.ok.injEq] at hstep
              rw [← hstep.1]
              exact hnd
        · simp [coordStep, hp, PendingConnect.take, ha] at hstep
      · by_cases ha : a = addr
        · subst ha
          cases status with
          | success =>
              by_cases hl : (lookupHandle handle t.connections).isSome
              · simp [coordStep, hp, PendingConnect.take, completeWithRole, hl] at hstep
              · simp only [coordStep, hp, PendingConnect.take, completeWithRole, hl,
                  Bool.false_eq_true, if_false, if_true, eq_self_iff_true,
                  StepResult.ok.injEq] at hstep
                rw [← hstep.1]
                show (handle :: t.connections.map Prod.fst).Nodup
                refine List.nodup_cons.mpr ⟨?_, hnd⟩
                intro hmemk
                exact hl ((lookupHandle_isSome_iff handle t.connections).mpr hmemk)
          | pageTimeout =>
              simp only [coordStep, hp, PendingConnect.take, completeWithRole,
                eq_self_iff_true, if_true, StepResult.ok.injEq] at hstep
              rw [← hstep.1]
              exact hnd
          | connectionTimeout =>
              simp only [coordStep, hp, PendingConnect.take, completeWithRole,
                eq_self_iff_true, if_true, StepResult.ok.injEq] at hstep
              rw [← hstep.1]
              exact hnd
          | other code =>
              simp only [coordStep, hp, PendingConnect.take, completeWithRole,
                eq_self_iff_true, if_true, StepResult.ok.injEq] at hstep
              rw [← hstep.1]
              exact hnd
        · simp [coordStep, hp, PendingConnect.take, ha] at hstep
      · simp [coordStep, hp, PendingConnect.take] at hstep
    · by_cases hc : alreadyConnected t.connections addr <;>
        simp only [coordStep, hc, Bool.false_eq_true, if_false, if_true,
          StepResult.ok.injEq] at hstep <;>
        rcases hstep with ⟨ht, _⟩ <;> rw [← ht] <;> exact hnd
    · by_cases hd : dispatch_to handle t.connections <;>
        simp only [coordStep, hd, Bool.false_eq_true, if_false, if_true,
          StepResult.ok.injEq] at hstep <;>
        rcases hstep with ⟨ht, _⟩ <;> rw [← ht] <;> exact hnd

/-- Every actor step preserves distinctness of the registry's handles. -/
theorem run_connection_step_nodup (h : Nat) (conns : Registry) (i : ActorInput)
    (hnd : (conns.map Prod.fst).Nodup) :
    ((run_connection_step h conns i).connections.map Prod.fst).Nodup := by
  rcases i with e | r
  · rcases e with ⟨reason⟩ | _
    · show ((removeHandle h conns).map Prod.fst).Nodup
      exact hnd.sublist ((List.filter_sublist _).map Prod.fst)
    · exact hnd
  · rcases r with ⟨reason⟩
    exact hnd

/-! ## Claim theorems -/

/-- C1: a `connect(addr)` arriving while `addr` already equals the address
of a registry entry is logged (`warn!`) and dropped — no queue entry, no
create-connection command, pending unchanged.  But the `return` in that
branch exits the whole spawned coordinator task, not just the match arm:
running the duplicate `connect 5` followed by a fresh `connect 6` ends the
run with outcome `returned` after the warn log alone — `connect 6` is never
processed and no `CreateConnection 6` is ever issued, contradicting the
claim that the coordinator continues to process subsequent requests and
controller events. -/
theorem c1_duplicate_connect_terminates_coordinator :
    coordStep
        { connections := [(1, { addr := 5, role := Role.central })],
          connect_queue := [], pending := PendingConnect.none }
        (Input.req (Request.connect 5)) =
      StepResult.returned
        { connections := [(1, { addr := 5, role := Role.central })],
          connect_queue := [], pending := PendingConnect.none }
        [Output.warnAlreadyConnected 5] ∧
    coordRun
        { connections := [(1, { addr := 5, role := Role.central })],
          connect_queue := [], pending := PendingConnect.none }
        [Input.req (Request.connect 5), Input.req (Request.connect 6)] =
      { outcome := RunOutcome.returned,
        state := { connections := [(1, { addr := 5, role := Role.central })],
                   connect_queue := [], pending := PendingConnect.none },
        out := [Output.warnAlreadyConnected 5] } := by
  exact ⟨rfl, rfl⟩

/-- C2 counterexample: `connect 1`; `connect 2` while 1 is outstanding;
then 1's successful `ConnectionComplete`.  Address 2 is queued, but after
1's attempt resolves the queue is untouched (still `[2]`, pending `None`)
and no `CreateConnection 2` command was ever issued: the queued address is
not attempted after the outstanding attempt completes, refuting the
claim's "a queued address is eventually attempted". -/
theorem c2_queue_not_promoted_after_completion :
    coordRun initState
        [Input.req (Request.connect 1), Input.req (Request.connect 2),
         Input.evt (HciEvent.connectionComplete 1 ErrorCode.success 7)] =
      { outcome := RunOutcome.running,
        state := { connections := [(7, { addr := 1, role := Role.central })],
                   connect_queue := [2], pending := PendingConnect.none },
        out := [Output.createConnection 1, Output.spawnActor 7,
                Output.connectSuccess 1 7 Role.central] } ∧
    Output.createConnection 2 ∉
      (coordRun initState
        [Input.req (Request.connect 1), Input.req (Request.connect 2),
         Input.evt (HciEvent.connectionComplete 1 ErrorCode.success 7)]).out := by
  constructor
  · rfl
  · decide

/-- C2 (amended): `connect b` while an attempt is pending stores `b` in the
connect queue rather than dropping it, and no create-connection command for
`b` is issued while the other attempt is outstanding; however the queue is
never promoted — across any run, a `CreateConnection x` command is emitted
only by a step consuming a fresh `connect x` request, so a queued address
is never attempted after the pending attempt completes unless its connect
request is submitted again. -/
theorem c2_busy_connect_queues_but_never_promotes
    (s : CoordState) (b : Address)
    (hbusy : s.pending ≠ PendingConnect.none)
    (hnew : alreadyConnected s.connections b = false) :
    coordStep s (Input.req (Request.connect b)) =
      StepResult.ok { s with connect_queue := b :: s.connect_queue } [] ∧
    ∀ (s0 : CoordState) (inputs : List Input) (x : Address),
      Output.createConnection x ∈ (coordRun s0 inputs).out →
      Input.req (Request.connect x) ∈ inputs := by
  refine ⟨?_, fun s0 inputs x hx => createConnection_run_mem s0 inputs x hx⟩
  rcases hp : s.pending with a | a | _
  · simp [coordStep, hnew, hp]
  · simp [coordStep, hnew, hp]
  · exact absurd hp hbusy

/-- C2 witness at a concrete busy state: pending `Outgoing 1`, empty queue,
request `connect 2`. -/
theorem c2_busy_connect_queues_but_never_promotes_witness :
    coordStep
        { connections := [], connect_queue := [], pending := PendingConnect.outgoing 1 }
        (Input.req (Request.connect 2)) =
      StepResult.ok
        { connections := [], connect_queue := [2],
          pending := PendingConnect.outgoing 1 } [] ∧
    ∀ (s0 : CoordState) (inputs : List Input) (x : Address),
      Output.createConnection x ∈ (coordRun s0 inputs).out →
      Input.req (Request.connect x) ∈ inputs :=
  c2_busy_connect_queues_but_never_promotes
    { connections := [], connect_queue := [], pending := PendingConnect.outgoing 1 } 2
    (by decide) rfl

/-- C5: a remote `ConnectionRequest(addr)` sets pending to `Incoming(addr)`
from any prior state, issues a reject with reason `UnacceptableBdAddr` iff
`addr` is already the address of a registry entry and an accept otherwise,
and neither creates nor removes any registry entry (the registry and queue
components are untouched). -/
theorem c5_connection_request_policy (s : CoordState) (addr : Address) :
    coordStep s (Input.evt (HciEvent.connectionRequest addr)) =
      StepResult.ok { s with pending := PendingConnect.incoming addr }
        (if alreadyConnected s.connections addr then
          [Output.rejectConnectionRequest addr RejectConnectionReason.unacceptableBdAddr]
        else
          [Output.acceptConnectionRequest addr]) := by
  by_cases hc : alreadyConnected s.connections addr <;> simp [coordStep, hc]

/-- C6 counterexample: with queue `[2]` and a pending attempt, `connect 3`
yields queue `[3, 2]` — the new address is inserted at the FRONT
(`connect_queue.insert(0, addr)`), not appended to the end `[2, 3]` as the
claim's FIFO reading requires. -/
theorem c6_insertion_is_at_front :
    (coordStep
        { connections := [], connect_queue := [2], pending := PendingConnect.outgoing 1 }
        (Input.req (Request.connect 3))).state.connect_queue = [3, 2] ∧
    (coordStep
        { connections := [], connect_queue := [2], pending := PendingConnect.outgoing 1 }
        (Input.req (Request.connect 3))).state.connect_queue ≠ [2, 3] := by
  constructor
  · rfl
  · decide

/-- C6 (amended): when `connect(addr)` arrives while pending is not `None`
(and `addr` is not already connected), the pending slot and registry are
unchanged and `addr` is inserted at the FRONT of the connect queue, so the
queued intents are held in LIFO (stack) order, not FIFO. -/
theorem c6_busy_connect_prepends
    (s : CoordState) (addr : Address)
    (hbusy : s.pending ≠ PendingConnect.none)
    (hnew : alreadyConnected s.connections addr = false) :
    coordStep s (Input.req (Request.connect addr)) =
      StepResult.ok
        { connections := s.connections,
          connect_queue := addr :: s.connect_queue,
          pending := s.pending } [] := by
  rcases hp : s.pending with a | a | _
  · simp [coordStep, hnew, hp]
  · simp [coordStep, hnew, hp]
  · exact absurd hp hbusy

/-- C6 witness at a concrete busy state with a non-empty queue. -/
theorem c6_busy_connect_prepends_witness :
    coordStep
        { connections := [], connect_queue := [4], pending := PendingConnect.outgoing 1 }
        (Input.req (Request.connect 3)) =
      StepResult.ok
        { connections := [], connect_queue := [3, 4],
          pending := PendingConnect.outgoing 1 } [] :=
  c6_busy_connect_prepends
    { connections := [], connect_queue := [4], pending := PendingConnect.outgoing 1 } 3
    (by decide) rfl

/-- C3: for a `ConnectionComplete` whose address equals the address held in
the pending slot, the pending slot of the resulting state is `None`
regardless of the status (`pending.take()` runs before the status is
inspected, and also on the assert-failure path), and any `ConnectSuccess`
the step emits carries role `Central` when the pending variant was
`Outgoing` and `Peripheral` when it was `Incoming`. -/
theorem c3_matching_complete_resets_pending_and_role
    (s : CoordState) (addr : Address) (status : ErrorCode) (handle : Nat)
    (hmatch : s.pending = PendingConnect.outgoing addr ∨
              s.pending = PendingConnect.incoming addr) :
    (coordStep s (Input.evt (HciEvent.connectionComplete addr status handle))).state.pending
        = PendingConnect.none ∧
    (s.pending = PendingConnect.outgoing addr →
      ∀ a h r, Output.connectSuccess a h r ∈
          (coordStep s (Input.evt (HciEvent.connectionComplete addr status handle))).out →
        r = Role.central) ∧
    (s.pending = PendingConnect.incoming addr →
      ∀ a h r, Output.connectSuccess a h r ∈
          (coordStep s (Input.evt (HciEvent.connectionComplete addr status handle))).out →
        r = Role.peripheral) := by
  rcases hmatch with hp | hp
  · refine ⟨?_, ?_, ?_⟩
    · cases status with
      | success =>
          by_cases hl : (lookupHandle handle s.connections).isSome <;>
            simp [coordStep, hp, PendingConnect.take, completeWithRole, hl,
              StepResult.state]
      | pageTimeout =>
          simp [coordStep, hp, PendingConnect.take, completeWithRole, StepResult.state]
      | connectionTimeout =>
          simp [coordStep, hp, PendingConnect.take, completeWithRole, StepResult.state]
      | other code =>
          simp [coordStep, hp, PendingConnect.take, completeWithRole, StepResult.state]
    · intro _ a h r hmem
      cases status with
      | success =>
          by_cases hl : (lookupHandle handle s.connections).isSome
          · simp [coordStep, hp, PendingConnect.take, completeWithRole, hl,
              StepResult.out] at hmem
          · simp [coordStep, hp, PendingConnect.take, completeWithRole, hl,
              StepResult.out] at hmem
            exact hmem.2.2
      | pageTimeout =>
          simp [coordStep, hp, PendingConnect.take, completeWithRole, StepResult.out] at hmem
      | connectionTimeout =>
          simp [coordStep, hp, PendingConnect.take, completeWithRole, StepResult.out] at hmem
      | other code =>
          simp [coordStep, hp, PendingConnect.take, completeWithRole, StepResult.out] at hmem
    · intro hcontra
      rw [hp] at hcontra
      exact PendingConnect.noConfusion hcontra
  · refine ⟨?_, ?_, ?_⟩
    · cases status with
      | success =>
          by_cases hl : (lookupHandle handle s.connections).isSome <;>
            simp [coordStep, hp, PendingConnect.take, completeWithRole, hl,
              StepResult.state]
      | pageTimeout =>
          simp [coordStep, hp, PendingConnect.take, completeWithRole, StepResult.state]
      | connectionTimeout =>
          simp [coordStep, hp, PendingConnect.take, completeWithRole, StepResult.state]
      | other code =>
          simp [coordStep, hp, PendingConnect.take, completeWithRole, StepResult.state]
    · intro hcontra
      rw [hp] at hcontra
      exact PendingConnect.noConfusion hcontra
    · intro _ a h r hmem
      cases status with
      | success =>
          by_cases hl : (lookupHandle handle s.connections).isSome
          · simp [coordStep, hp, PendingConnect.take, completeWithRole, hl,
              StepResult.out] at hmem
          · simp [coordStep, hp, PendingConnect.take, completeWithRole, hl,
              StepResult.out] at hmem
            exact hmem.2.2
      | pageTimeout =>
          simp [coordStep, hp, PendingConnect.take, completeWithRole, StepResult.out] at hmem
      | connectionTimeout =>
          simp [coordStep, hp, PendingConnect.take, completeWithRole, StepResult.out] at hmem
      | other code =>
          simp [coordStep, hp, PendingConnect.take, completeWithRole, StepResult.out] at hmem

/-- C3 witness: pending `Outgoing 3`, matching successful completion with
handle 9. -/
theorem c3_matching_complete_resets_pending_and_role_witness :
    (coordStep { connections := [], connect_queue := [], pending := PendingConnect.outgoing 3 }
        (Input.evt (HciEvent.connectionComplete 3 ErrorCode.success 9))).state.pending
        = PendingConnect.none ∧
    (PendingConnect.outgoing 3 = PendingConnect.outgoing 3 →
      ∀ a h r, Output.connectSuccess a h r ∈
          (coordStep
              { connections := [], connect_queue := [], pending := PendingConnect.outgoing 3 }
              (Input.evt (HciEvent.connectionComplete 3 ErrorCode.success 9))).out →
        r = Role.central) ∧
    (PendingConnect.outgoing 3 = PendingConnect.incoming 3 →
      ∀ a h r, Output.connectSuccess a h r ∈
          (coordStep
              { connections := [], connect_queue := [], pending := PendingConnect.outgoing 3 }
              (Input.evt (HciEvent.connectionComplete 3 ErrorCode.success 9))).out →
        r = Role.peripheral) :=
  c3_matching_complete_resets_pending_and_role
    { connections := [], connect_queue := [], pending := PendingConnect.outgoing 3 }
    3 ErrorCode.success 9 (Or.inl rfl)

/-- C4: the `panic!("No prior connection request ...")` branch fires on a
`ConnectionComplete` exactly when the event's address does not match the
pending attempt (including pending `None`); when it fires, the whole run
halts at that input with no outputs, regardless of any further inputs —
the state machine never proceeds past it.  Under a matching pending
variant, that branch is unreachable (the iff's right-to-left direction). -/
theorem c4_mismatched_complete_fatal
    (s : CoordState) (addr : Address) (status : ErrorCode) (handle : Nat) :
    (isNoPriorFatal
        (coordStep s (Input.evt (HciEvent.connectionComplete addr status handle))) addr = true ↔
      ¬ (s.pending = PendingConnect.outgoing addr ∨
         s.pending = PendingConnect.incoming addr)) ∧
    (¬ (s.pending = PendingConnect.outgoing addr ∨
        s.pending = PendingConnect.incoming addr) →
      ∀ rest : List Input,
        coordRun s (Input.evt (HciEvent.connectionComplete addr status handle) :: rest) =
          { outcome := RunOutcome.fatal (FatalKind.noPriorConnectionRequest addr),
            state := { s with pending := PendingConnect.none },
            out := [] }) := by
  constructor
  · rcases hp : s.pending with a | a | _
    · by_cases ha : a = addr
      · subst ha
        have hstep : coordStep s (Input.evt (HciEvent.connectionComplete a status handle))
            = completeWithRole { s with pending := PendingConnect.none } a status handle
                Role.central := by
          simp [coordStep, hp, PendingConnect.take]
        rw [hstep, isNoPriorFatal_completeWithRole]
        simp [hp]
      · have hstep : coordStep s (Input.evt (HciEvent.connectionComplete addr status handle))
            = StepResult.fatal (FatalKind.noPriorConnectionRequest addr)
                { s with pending := PendingConnect.none } [] := by
          simp [coordStep, hp, PendingConnect.take, ha]
        rw [hstep]
        simp [isNoPriorFatal, hp, ha]
    · by_cases ha : a = addr
      · subst ha
        have hstep : coordStep s (Input.evt (HciEvent.connectionComplete a status handle))
            = completeWithRole { s with pending := PendingConnect.none } a status handle
                Role.peripheral := by
          simp [coordStep, hp, PendingConnect.take]
        rw [hstep, isNoPriorFatal_completeWithRole]
        simp [hp]
      · have hstep : coordStep s (Input.evt (HciEvent.connectionComplete addr status handle))
            = StepResult.fatal (FatalKind.noPriorConnectionRequest addr)
                { s with pending := PendingConnect.none } [] := by
          simp [coordStep, hp, PendingConnect.take, ha]
        rw [hstep]
        simp [isNoPriorFatal, hp, ha]
    · have hstep : coordStep s (Input.evt (HciEvent.connectionComplete addr status handle))
          = StepResult.fatal (FatalKind.noPriorConnectionRequest addr)
              { s with pending := PendingConnect.none } [] := by
        simp [coordStep, hp, PendingConnect.take]
      rw [hstep]
      simp [isNoPriorFatal, hp]
  · intro hmis rest
    rcases hp : s.pending with a | a | _
    · have ha : ¬ a = addr := fun e => hmis (Or.inl (hp.trans (by rw [e])))
      simp [coordRun, coordStep, hp, PendingConnect.take, ha]
    · have ha : ¬ a = addr := fun e => hmis (Or.inr (hp.trans (by rw [e])))
      simp [coordRun, coordStep, hp, PendingConnect.take, ha]
    · simp [coordRun, coordStep, hp, PendingConnect.take]

/-- C4 witness: pending `None`, completion for address 4 — the run halts
fatally with no outputs, whatever follows. -/
theorem c4_mismatched_complete_fatal_witness :
    (isNoPriorFatal
        (coordStep { connections := [], connect_queue := [], pending := PendingConnect.none }
          (Input.evt (HciEvent.connectionComplete 4 ErrorCode.success 0))) 4 = true ↔
      ¬ (PendingConnect.none = PendingConnect.outgoing 4 ∨
         PendingConnect.none = PendingConnect.incoming 4)) ∧
    (¬ (PendingConnect.none = PendingConnect.outgoing 4 ∨
        PendingConnect.none = PendingConnect.incoming 4) →
      ∀ rest : List Input,
        coordRun { connections := [], connect_queue := [], pending := PendingConnect.none }
            (Input.evt (HciEvent.connectionComplete 4 ErrorCode.success 0) :: rest) =
          { outcome := RunOutcome.fatal (FatalKind.noPriorConnectionRequest 4),
            state := { connections := [], connect_queue := [], pending := PendingConnect.none },
            out := [] }) :=
  c4_mismatched_complete_fatal
    { connections := [], connect_queue := [], pending := PendingConnect.none }
    4 ErrorCode.success 0

/-- C7: `cancel_connect(addr)` removes every queue entry equal to `addr`;
a `CreateConnectionCancel` command is sent iff the pending attempt is
`Outgoing(addr)` (for a queued-but-not-pending address nothing is sent);
the oneshot acknowledgment is the step's final effect, emitted after the
queue removal and the conditional command are applied in the same atomic
step; and since a `CreateConnection x` is only ever emitted by a step
consuming a fresh `connect x` request, a cancelled queued address is never
attempted. -/
theorem c7_cancel_connect_applies_then_acks
    (s : CoordState) (addr : Address) :
    coordStep s (Input.req (Request.cancelConnect addr)) =
      StepResult.ok
        { s with connect_queue := s.connect_queue.filter (fun p => p != addr) }
        (if s.pending = PendingConnect.outgoing addr then
          [Output.createConnectionCancel addr, Output.cancelConnectAck]
        else
          [Output.cancelConnectAck]) ∧
    ∀ (s0 : CoordState) (inputs : List Input) (x : Address),
      Output.createConnection x ∈ (coordRun s0 inputs).out →
      Input.req (Request.connect x) ∈ inputs :=
  ⟨rfl, fun s0 inputs x hx => createConnection_run_mem s0 inputs x hx⟩

/-- C7 witness: queue `[5, 6, 5]`, pending `Outgoing 8`; cancelling 5
removes both queued copies and sends no controller command, only the
acknowledgment. -/
theorem c7_cancel_connect_applies_then_acks_witness :
    coordStep { connections := [], connect_queue := [5, 6, 5], pending := PendingConnect.outgoing 8 }
        (Input.req (Request.cancelConnect 5)) =
      StepResult.ok
        { connections := [], connect_queue := [6], pending := PendingConnect.outgoing 8 }
        [Output.cancelConnectAck] ∧
    ∀ (s0 : CoordState) (inputs : List Input) (x : Address),
      Output.createConnection x ∈ (coordRun s0 inputs).out →
      Input.req (Request.connect x) ∈ inputs := by
  have h := c7_cancel_connect_applies_then_acks
    { connections := [], connect_queue := [5, 6, 5], pending := PendingConnect.outgoing 8 } 5
  exact ⟨by rw [h.1]; decide, h.2⟩

/-- C8: a `ConnectionComplete` matching the pending attempt whose status is
not `Success` produces exactly one `ConnectFail` carrying that address and
the controller's status as reason, and nothing else: the registry is
untouched (no entry inserted or removed) and no actor is spawned. -/
theorem c8_failure_complete_emits_one_connect_fail
    (s : CoordState) (addr : Address) (status : ErrorCode) (handle : Nat)
    (hmatch : s.pending = PendingConnect.outgoing addr ∨
              s.pending = PendingConnect.incoming addr)
    (hfail : status ≠ ErrorCode.success) :
    coordStep s (Input.evt (HciEvent.connectionComplete addr status handle)) =
      StepResult.ok { s with pending := PendingConnect.none }
        [Output.connectFail addr status] := by
  rcases hmatch with hp | hp
  all_goals
    cases status with
    | success => exact absurd rfl hfail
    | pageTimeout => simp [coordStep, hp, PendingConnect.take, completeWithRole]
    | connectionTimeout => simp [coordStep, hp, PendingConnect.take, completeWithRole]
    | other code => simp [coordStep, hp, PendingConnect.take, completeWithRole]

/-- C8 witness: pending `Outgoing 2`, completion for 2 with status
`PageTimeout`. -/
theorem c8_failure_complete_emits_one_connect_fail_witness :
    coordStep { connections := [], connect_queue := [], pending := PendingConnect.outgoing 2 }
        (Input.evt (HciEvent.connectionComplete 2 ErrorCode.pageTimeout 3)) =
      StepResult.ok { connections := [], connect_queue := [], pending := PendingConnect.none }
        [Output.connectFail 2 ErrorCode.pageTimeout] :=
  c8_failure_complete_emits_one_connect_fail
    { connections := [], connect_queue := [], pending := PendingConnect.outgoing 2 }
    2 ErrorCode.pageTimeout 3 (Or.inl rfl) (by decide)

/-- C9: when the actor owning `handle` receives `DisconnectionComplete`, it
removes exactly its own registry entry (the registry shrinks by exactly
one and the handle no longer resolves), emits exactly one
`Disconnected(reason)` on the connection's event stream, and terminates;
afterwards `dispatch_to` finds no entry for the handle, so any later
handle-scoped event (such as `AuthenticationComplete`) is silently dropped
rather than routed. -/
theorem c9_disconnection_removes_entry_and_terminates
    (handle : Nat) (conns : Registry) (reason : ErrorCode)
    (hnd : (conns.map Prod.fst).Nodup)
    (hlive : (lookupHandle handle conns).isSome = true) :
    run_connection_step handle conns
        (ActorInput.hciEvt (ActorHciEvent.disconnectionComplete reason)) =
      ActorResult.terminated (removeHandle handle conns)
        [ActorOutput.emit (ConnectionEvent.disconnected reason)] ∧
    lookupHandle handle (removeHandle handle conns) = Option.none ∧
    dispatch_to handle (removeHandle handle conns) = false ∧
    (removeHandle handle conns).length + 1 = conns.length := by
  refine ⟨rfl, lookupHandle_removeHandle handle conns, ?_,
    removeHandle_length_succ handle conns hnd hlive⟩
  show (lookupHandle handle (removeHandle handle conns)).isSome = false
  rw [lookupHandle_removeHandle]
  rfl

/-- C9 witness: registry holding only handle 7; its actor receives
`DisconnectionComplete(PageTimeout)`. -/
theorem c9_disconnection_removes_entry_and_terminates_witness :
    run_connection_step 7 [(7, { addr := 1, role := Role.central })]
        (ActorInput.hciEvt (ActorHciEvent.disconnectionComplete ErrorCode.pageTimeout)) =
      ActorResult.terminated (removeHandle 7 [(7, { addr := 1, role := Role.central })])
        [ActorOutput.emit (ConnectionEvent.disconnected ErrorCode.pageTimeout)] ∧
    lookupHandle 7 (removeHandle 7 [(7, { addr := 1, role := Role.central })]) = Option.none ∧
    dispatch_to 7 (removeHandle 7 [(7, { addr := 1, role := Role.central })]) = false ∧
    (removeHandle 7 [(7, { addr := 1, role := Role.central })]).length + 1
        = [(7, ({ addr := 1, role := Role.central } : ConnectionInternal))].length :=
  c9_disconnection_removes_entry_and_terminates
    7 [(7, { addr := 1, role := Role.central })] ErrorCode.pageTimeout (by decide) rfl

/-- C10: a successful `ConnectionComplete` matching the pending attempt
whose handle is still present in the registry trips the registry-insertion
`assert!` and aborts, rather than silently overwriting the existing entry;
and every operation — each normally continuing coordinator step and each
actor step — preserves the invariant that registry handles are distinct,
so each live handle has at most one registry entry. -/
theorem c10_handle_reuse_asserts_and_uniqueness_preserved
    (s : CoordState) (addr : Address) (handle : Nat)
    (hmatch : s.pending = PendingConnect.outgoing addr ∨
              s.pending = PendingConnect.incoming addr)
    (hdup : (lookupHandle handle s.connections).isSome = true) :
    isHandleReuseFatal
        (coordStep s (Input.evt (HciEvent.connectionComplete addr ErrorCode.success handle)))
        handle = true ∧
    (∀ (t : CoordState) (i : Input) (t' : CoordState) (o : List Output),
        coordStep t i = StepResult.ok t' o →
        (t.connections.map Prod.fst).Nodup →
        (t'.connections.map Prod.fst).Nodup) ∧
    (∀ (h : Nat) (conns : Registry) (i : ActorInput),
        (conns.map Prod.fst).Nodup →
        ((run_connection_step h conns i).connections.map Prod.fst).Nodup) := by
  refine ⟨?_, fun t i t' o h1 h2 => coordStep_ok_nodup t i t' o h1 h2,
    fun h conns i hn => run_connection_step_nodup h conns i hn⟩
  rcases hmatch with hp | hp <;>
    simp [coordStep, hp, PendingConnect.take, completeWithRole, hdup, isHandleReuseFatal]

/-- C10 witness: handle 7 is registered, pending `Outgoing 4`, and the
controller reports success for address 4 reusing handle 7. -/
theorem c10_handle_reuse_asserts_and_uniqueness_preserved_witness :
    isHandleReuseFatal
        (coordStep
          { connections := [(7, { addr := 1, role := Role.central })],
            connect_queue := [], pending := PendingConnect.outgoing 4 }
          (Input.evt (HciEvent.connectionComplete 4 ErrorCode.success 7)))
        7 = true ∧
    (∀ (t : CoordState) (i : Input) (t' : CoordState) (o : List Output),
        coordStep t i = StepResult.ok t' o →
        (t.connections.map Prod.fst).Nodup →
        (t'.connections.map Prod.fst).Nodup) ∧
    (∀ (h : Nat) (conns : Registry) (i : ActorInput),
        (conns.map Prod.fst).Nodup →
        ((run_connection_step h conns i).connections.map Prod.fst).Nodup) :=
  c10_handle_reuse_asserts_and_uniqueness_preserved
    { connections := [(7, { addr := 1, role := Role.central })],
      connect_queue := [], pending := PendingConnect.outgoing 4 }
    4 7 (Or.inl rfl) rfl

end AclClassic
